import Mathlib

/-!
# Verification of `internal/olm/installer/manager.go`

A shallow embedding of the OLM installer `Manager`: its once-only
`initialize`, and the three top-level operations `Install`, `Uninstall`
and `Status`, together with the version reconciliation that `Uninstall`
and `Status` carry inline.

The Go code is stateful and talks to collaborators that are not part of the
file (`config.GetConfig`, `ClientForConfig`, the four `*Client` methods, the
logger and standard output).  The embedding therefore passes the `Manager`
record explicitly, threads a history of every collaborator call made so far,
and takes the collaborators' answers from a `World` whose answers may depend
on that history.
-/

/-! ## Data model -/

/-- Go `error` values.  `remote` is an error value produced by a collaborator;
`Errorf` is the value built by `fmt.Errorf format operands...`, kept as the
format string and its operands, the string operands and the error operands each
in order; `GoError.message` below gives its text. -/
inductive GoError where
  | remote (msg : String)
  | Errorf (format : String) (strs : List String) (errs : List GoError)
  deriving Repr

/-- The `*rest.Config` value handed from `config.GetConfig` to `ClientForConfig`. -/
structure Config where
  id : Nat
  deriving DecidableEq, Repr

/-- A non-nil `*Client`.  The field `Manager.Client` is an `Option Client`,
`none` standing for the nil pointer. -/
structure Client where
  id : Nat
  deriving DecidableEq, Repr

/-- `DefaultVersion` of the source. -/
def DefaultVersion : String := "0.28.0"

/-- `DefaultTimeout = time.Minute * 2`, in nanoseconds as `time.Duration` counts. -/
def DefaultTimeout : Int := 60000000000 * 2

/-- `DefaultOLMNamespace` of the source. -/
def DefaultOLMNamespace : String := "olm"

/-- The `Manager` struct.  `once` is the done flag of the `sync.Once` field:
`false` until `once.Do` has run its function, `true` afterwards. -/
structure Manager where
  Client : Option Client
  Version : String
  Timeout : Int
  OLMNamespace : String
  once : Bool
  deriving DecidableEq, Repr

/-- Everything the code does to the outside, in program order: the calls to the
collaborators with their arguments (receiver, timeout of the context, and the
call's own arguments) and the lines logged or printed. -/
inductive Event where
  | GetConfig
  | ClientForConfig (cfg : Config)
  | InstallVersion (recv : Option Client) (timeout : Int) (ns : String) (version : String)
  | GetInstalledVersion (recv : Option Client) (timeout : Int) (ns : String)
  | UninstallVersion (recv : Option Client) (timeout : Int) (version : String)
  | GetStatus (recv : Option Client) (timeout : Int) (version : String)
  | Infof (format : String) (arg : String)
  | Print (text : String)
  | Println (text : String)
  deriving DecidableEq, Repr

/-- The collaborators, none of which is part of the source file, taken as
parameters.  Each answer may depend on the history of events up to the call, so a
collaborator may answer the same call differently each time.  The `*Client`
methods take the receiver as the source passes it, nil included, and the timeout
of the context the source builds for the call.

Modelled from the spec: `config.GetConfig` and `ClientForConfig` are not in the
source file; following the spec ("discover cluster configuration and construct
one; if the construction or configuration discovery fails, the whole
initialization fails") each either fails with an error or yields its value, and a
constructed client is a non-nil pointer. -/
structure World where
  GetConfig : List Event → Except GoError Config
  ClientForConfig : List Event → Config → Except GoError Client
  InstallVersion : List Event → Option Client → Int → String → String → Except GoError String
  GetInstalledVersion : List Event → Option Client → Int → String → Except GoError String
  UninstallVersion : List Event → Option Client → Int → String → Option GoError
  GetStatus : List Event → Option Client → Int → String → Except GoError String

/-- What a method of `Manager` leaves behind: the returned `error` (`none` is
nil), the `Manager` after the call and the history after the call. -/
structure Result where
  err : Option GoError
  mgr : Manager
  hist : List Event

/-! ## The operations -/

/-- The function passed to `once.Do` in `initialize` (lines 47-66): returns the
value assigned to the named result `err` and the updated fields. -/
def Manager.initializeBody (w : World) (m : Manager) (h : List Event) : Result :=
  let afterClient (m : Manager) (h : List Event) : Result :=
    let m := if m.Timeout ≤ 0 then { m with Timeout := DefaultTimeout } else m
    let m := if m.OLMNamespace = "" then { m with OLMNamespace := DefaultOLMNamespace } else m
    ⟨none, m, h⟩
  match m.Client with
  | none =>
    match w.GetConfig h with
    | Except.error cerr =>
      ⟨some (GoError.Errorf "failed to get Kubernetes config: %v" [] [cerr]), m,
        h ++ [Event.GetConfig]⟩
    | Except.ok cfg =>
      match w.ClientForConfig (h ++ [Event.GetConfig]) cfg with
      | Except.error cerr =>
        ⟨some (GoError.Errorf "failed to create manager client: %v" [] [cerr]), m,
          h ++ [Event.GetConfig, Event.ClientForConfig cfg]⟩
      | Except.ok client =>
        afterClient { m with Client := some client }
          (h ++ [Event.GetConfig, Event.ClientForConfig cfg])
  | some _ => afterClient m h

/-- `func (m *Manager) initialize() (err error)`: `once.Do` runs the body only
while the done flag is unset and sets the flag when the body returns; when the
flag is set the body is skipped and the named result keeps its zero value nil. -/
def Manager.initialize (w : World) (m : Manager) (h : List Event) : Result :=
  if m.once then ⟨none, m, h⟩
  else
    let r := Manager.initializeBody w m h
    ⟨r.err, { r.mgr with once := true }, r.hist⟩

/-- `func (m *Manager) Install() error`. -/
def Manager.Install (w : World) (m : Manager) (h : List Event) : Result :=
  let i := Manager.initialize w m h
  match i.err with
  | some err => ⟨some err, i.mgr, i.hist⟩
  | none =>
    let m := i.mgr
    let h := i.hist
    let call := Event.InstallVersion m.Client m.Timeout m.OLMNamespace m.Version
    match w.InstallVersion h m.Client m.Timeout m.OLMNamespace m.Version with
    | Except.error err => ⟨some err, m, h ++ [call]⟩
    | Except.ok status =>
      ⟨none, m, h ++ [call, Event.Infof "Successfully installed OLM version %q" m.Version,
        Event.Print "\n", Event.Println status]⟩

/-- `func (m *Manager) Uninstall() error`.  The if-ladder of lines 98-108 either
returns an error or falls through with the `Manager` it leaves. -/
def Manager.Uninstall (w : World) (m : Manager) (h : List Event) : Result :=
  let i := Manager.initialize w m h
  match i.err with
  | some err => ⟨some err, i.mgr, i.hist⟩
  | none =>
    let m := i.mgr
    let query := Event.GetInstalledVersion m.Client m.Timeout m.OLMNamespace
    let h := i.hist ++ [query]
    let ladder : Except GoError Manager :=
      match w.GetInstalledVersion i.hist m.Client m.Timeout m.OLMNamespace with
      | Except.error err =>
        if m.Version = "" then
          Except.error (GoError.Errorf
            "error getting installed OLM version (set --version to override the default version): %v"
            [] [err])
        else Except.ok m
      | Except.ok version =>
        if m.Version ≠ "" then
          if version ≠ m.Version then
            Except.error (GoError.Errorf
              "mismatched installed version %q vs. supplied version %q" [version, m.Version] [])
          else Except.ok m
        else Except.ok { m with Version := version }
    match ladder with
    | Except.error err => ⟨some err, m, h⟩
    | Except.ok m =>
      let call := Event.UninstallVersion m.Client m.Timeout m.Version
      match w.UninstallVersion h m.Client m.Timeout m.Version with
      | some err => ⟨some err, m, h ++ [call]⟩
      | none =>
        ⟨none, m, h ++ [call, Event.Infof "Successfully uninstalled OLM version %q" m.Version]⟩

/-- `func (m *Manager) Status() error`.  The if-ladder of lines 126-136 either
returns an error or falls through with the `Manager` it leaves. -/
def Manager.Status (w : World) (m : Manager) (h : List Event) : Result :=
  let i := Manager.initialize w m h
  match i.err with
  | some err => ⟨some err, i.mgr, i.hist⟩
  | none =>
    let m := i.mgr
    let query := Event.GetInstalledVersion m.Client m.Timeout m.OLMNamespace
    let h := i.hist ++ [query]
    let ladder : Except GoError Manager :=
      match w.GetInstalledVersion i.hist m.Client m.Timeout m.OLMNamespace with
      | Except.error err =>
        if m.Version = "" then
          Except.error (GoError.Errorf
            "error getting installed OLM version (set --version to override the default version): %v"
            [] [err])
        else Except.ok m
      | Except.ok version =>
        if m.Version ≠ "" then
          if version ≠ m.Version then
            Except.error (GoError.Errorf
              "mismatched installed version %q vs. supplied version %q" [version, m.Version] [])
          else Except.ok m
        else Except.ok { m with Version := version }
    match ladder with
    | Except.error err => ⟨some err, m, h⟩
    | Except.ok m =>
      let call := Event.GetStatus m.Client m.Timeout m.Version
      match w.GetStatus h m.Client m.Timeout m.Version with
      | Except.error err => ⟨some err, m, h ++ [call]⟩
      | Except.ok status =>
        ⟨none, m, h ++ [call, Event.Infof "Successfully got OLM status for version %q" m.Version,
          Event.Print "\n", Event.Println status]⟩

/-! ## Sequences of calls and concrete worlds -/

/-- The four methods a caller (or another method) may invoke on a `Manager`. -/
inductive Op where
  | init
  | install
  | uninstall
  | status
  deriving DecidableEq, Repr

/-- One call of the named method. -/
def Manager.call (w : World) (op : Op) (m : Manager) (h : List Event) : Result :=
  match op with
  | Op.init => Manager.initialize w m h
  | Op.install => Manager.Install w m h
  | Op.uninstall => Manager.Uninstall w m h
  | Op.status => Manager.Status w m h

/-- The named methods called one after the other on the same `Manager`, each on
the `Manager` and history the previous one left, whatever it returned. -/
def Manager.calls (w : World) : List Op → Manager → List Event → Manager × List Event
  | [], m, h => (m, h)
  | op :: ops, m, h =>
    let r := Manager.call w op m h
    Manager.calls w ops r.mgr r.hist

/-- A world whose collaborators give the same answer at every call. -/
def World.fixed (cfg : Except GoError Config) (client : Except GoError Client)
    (install : Except GoError String) (installed : Except GoError String)
    (uninstall : Option GoError) (status : Except GoError String) : World where
  GetConfig := fun _ => cfg
  ClientForConfig := fun _ _ => client
  InstallVersion := fun _ _ _ _ _ => install
  GetInstalledVersion := fun _ _ _ _ => installed
  UninstallVersion := fun _ _ _ _ => uninstall
  GetStatus := fun _ _ _ _ => status

/-- A cluster whose configuration is found and whose client is built, where the
version query gives `installed` and the uninstall gives `uninstall`; the install
and status calls succeed. -/
def clusterWith (installed : Except GoError String) (uninstall : Option GoError) : World :=
  World.fixed (Except.ok ⟨0⟩) (Except.ok ⟨1⟩) (Except.ok "installed") installed uninstall
    (Except.ok "all resources present")

/-- A `Manager` as a caller builds it before the first call: the given fields and
an unused `sync.Once`. -/
def newManager (client : Option Client) (version : String) (timeout : Int)
    (ns : String) : Manager :=
  ⟨client, version, timeout, ns, false⟩

/-- An event is a call to one of the four `*Client` methods. -/
def Event.isClientCall : Event → Bool
  | Event.InstallVersion _ _ _ _ => true
  | Event.GetInstalledVersion _ _ _ => true
  | Event.UninstallVersion _ _ _ => true
  | Event.GetStatus _ _ _ => true
  | _ => false

/-- An event is configuration discovery or client construction. -/
def Event.isSetup : Event → Bool
  | Event.GetConfig => true
  | Event.ClientForConfig _ => true
  | _ => false

/-! ## Pieces of the operations, named for the proofs -/

/-- Lines 110-115 of `Uninstall`: the remote uninstall and the log line, from the
`Manager` and history the if-ladder leaves. -/
def Manager.uninstallFrom (w : World) (m : Manager) (h : List Event) : Result :=
  match w.UninstallVersion h m.Client m.Timeout m.Version with
  | some err => ⟨some err, m, h ++ [Event.UninstallVersion m.Client m.Timeout m.Version]⟩
  | none =>
    ⟨none, m, h ++ [Event.UninstallVersion m.Client m.Timeout m.Version,
      Event.Infof "Successfully uninstalled OLM version %q" m.Version]⟩

/-- Lines 138-146 of `Status`: the remote status query and the output, from the
`Manager` and history the if-ladder leaves. -/
def Manager.statusFrom (w : World) (m : Manager) (h : List Event) : Result :=
  match w.GetStatus h m.Client m.Timeout m.Version with
  | Except.error err => ⟨some err, m, h ++ [Event.GetStatus m.Client m.Timeout m.Version]⟩
  | Except.ok status =>
    ⟨none, m, h ++ [Event.GetStatus m.Client m.Timeout m.Version,
      Event.Infof "Successfully got OLM status for version %q" m.Version,
      Event.Print "\n", Event.Println status]⟩

/-- The error of line 100 and line 128. -/
def unresolvedError (cause : GoError) : GoError :=
  GoError.Errorf
    "error getting installed OLM version (set --version to override the default version): %v"
    [] [cause]

/-- The error of line 104 and line 132. -/
def mismatchError (installed supplied : String) : GoError :=
  GoError.Errorf "mismatched installed version %q vs. supplied version %q" [installed, supplied] []

/-! ## The text of an error

`fmt.Errorf` and `strconv.Quote` belong to the Go standard library; what follows is
their behaviour on the formats and operands of the source file, so that the text
of a returned error can be compared with the version strings it was built from. -/

/-- `strconv.IsPrint`: decided by comparison up to U+00FF, and by the library's
Unicode tables above, which are taken as the parameter `isPrintTable`. -/
def isPrint (isPrintTable : Char → Bool) (r : Char) : Bool :=
  if r.toNat ≤ 0xFF then
    if 0x20 ≤ r.toNat ∧ r.toNat ≤ 0x7E then true
    else if 0xA1 ≤ r.toNat ∧ r.toNat ≤ 0xFF then r.toNat ≠ 0xAD
    else false
  else isPrintTable r

/-- The digit `lowerhex[n]` of `strconv`. -/
def lowerhex (n : Nat) : Char :=
  "0123456789abcdef".data.getD n '0'

/-- `strconv.appendEscapedRune` as `strconv.Quote` calls it (quote character `"`, no
ASCII-only and no graphic-only mode): the characters written for the rune `r`. -/
def appendEscapedRune (isPrintTable : Char → Bool) (r : Char) : List Char :=
  if r = '"' ∨ r = '\\' then ['\\', r]
  else if isPrint isPrintTable r then [r]
  else if r.toNat = 7 then ['\\', 'a']
  else if r.toNat = 8 then ['\\', 'b']
  else if r.toNat = 12 then ['\\', 'f']
  else if r = '\n' then ['\\', 'n']
  else if r = '\r' then ['\\', 'r']
  else if r = '\t' then ['\\', 't']
  else if r.toNat = 11 then ['\\', 'v']
  else if r.toNat < 0x20 ∨ r.toNat = 0x7F then
    ['\\', 'x', lowerhex (r.toNat / 16), lowerhex (r.toNat % 16)]
  else if r.toNat < 0x10000 then
    ['\\', 'u', lowerhex (r.toNat / 4096 % 16), lowerhex (r.toNat / 256 % 16),
      lowerhex (r.toNat / 16 % 16), lowerhex (r.toNat % 16)]
  else
    ['\\', 'U', lowerhex (r.toNat / 268435456 % 16), lowerhex (r.toNat / 16777216 % 16),
      lowerhex (r.toNat / 1048576 % 16), lowerhex (r.toNat / 65536 % 16),
      lowerhex (r.toNat / 4096 % 16), lowerhex (r.toNat / 256 % 16),
      lowerhex (r.toNat / 16 % 16), lowerhex (r.toNat % 16)]

/-- The escaped form of every rune of a string, in order. -/
def escapeChars (isPrintTable : Char → Bool) : List Char → List Char
  | [] => []
  | r :: rest => appendEscapedRune isPrintTable r ++ escapeChars isPrintTable rest

/-- `strconv.Quote`, which renders a string operand of the verb `%q`: the escaped
runes between two double quotes.  A `String` holds valid UTF-8 only, so the
library's branch for invalid bytes does not arise. -/
def quote (isPrintTable : Char → Bool) (s : String) : String :=
  ⟨'"' :: escapeChars isPrintTable s.data ++ ['"']⟩

/-- `fmt.Sprintf` on the formats of the source file: literal text, `%q` taking the
next string operand and `%v` taking the next error operand (given by its text).
Any other verb, a missing operand or an operand left over gives `none`: the
source has none of these and they are not rendered here. -/
def sprintfChars (isPrintTable : Char → Bool) :
    List Char → List String → List String → Option (List Char)
  | [], [], [] => some []
  | [], _, _ => none
  | c :: rest, strs, errs =>
    if c = '%' then
      match rest with
      | [] => none
      | d :: rest2 =>
        if d = 'q' then
          match strs with
          | [] => none
          | s :: strs2 =>
            (sprintfChars isPrintTable rest2 strs2 errs).map
              (fun out => (quote isPrintTable s).data ++ out)
        else if d = 'v' then
          match errs with
          | [] => none
          | e :: errs2 =>
            (sprintfChars isPrintTable rest2 strs errs2).map (fun out => e.data ++ out)
        else none
    else (sprintfChars isPrintTable rest strs errs).map (fun out => c :: out)

mutual
/-- The text `Error()` returns: a collaborator's error gives its own text, an error
built by `fmt.Errorf` the text `fmt.Sprintf` renders from its format and operands. -/
def GoError.message (isPrintTable : Char → Bool) : GoError → Option String
  | GoError.remote msg => some msg
  | GoError.Errorf format strs errs =>
    match GoError.messages isPrintTable errs with
    | none => none
    | some texts => (sprintfChars isPrintTable format.data strs texts).map String.mk
/-- The texts of a list of errors, when each has one. -/
def GoError.messages (isPrintTable : Char → Bool) : List GoError → Option (List String)
  | [] => some []
  | e :: rest =>
    match GoError.message isPrintTable e, GoError.messages isPrintTable rest with
    | some text, some texts => some (text :: texts)
    | _, _ => none
end

/-- The text starts with the pattern. -/
def startsWithChars : List Char → List Char → Bool
  | _, [] => true
  | [], _ :: _ => false
  | t :: text, c :: pat => t == c && startsWithChars text pat

/-- The pattern occurs in the text, at its start or further on. -/
def containsChars : List Char → List Char → Bool
  | [], pat => startsWithChars [] pat
  | t :: text, pat => startsWithChars (t :: text) pat || containsChars text pat

/-- The text `msg` contains `s` as a substring (`strings.Contains msg s`). -/
def textContains (msg s : String) : Bool :=
  containsChars msg.data s.data

/-- No rune of `s` is changed by `%q`: each is written as itself. -/
def plainText (isPrintTable : Char → Bool) (s : String) : Bool :=
  s.data.all (fun r => decide (appendEscapedRune isPrintTable r = [r]))

/-! ## Lemmas on `initialize` -/

theorem initialize_of_done (w : World) (m : Manager) (h : List Event)
    (hdone : m.once = true) : Manager.initialize w m h = ⟨none, m, h⟩ := by
  simp [ Manager.initialize, hdone]

theorem initialize_once (w : World) (m : Manager) (h : List Event) :
    ( Manager.initialize w m h).mgr.once = true := by
  unfold Manager.initialize
  split
  · assumption
  · rfl

theorem initializeBody_Version (w : World) (m : Manager) (h : List Event) :
    ( Manager.initializeBody w m h).mgr.Version = m.Version := by
  unfold Manager.initializeBody
  split
  · split
    · rfl
    · split
      · rfl
      · dsimp only
        split <;> split <;> rfl
  · dsimp only
    split <;> split <;> rfl

theorem initialize_Version (w : World) (m : Manager) (h : List Event) :
    ( Manager.initialize w m h).mgr.Version = m.Version := by
  unfold Manager.initialize
  split
  · rfl
  · exact initializeBody_Version w m h

theorem initializeBody_hist (w : World) (m : Manager) (h : List Event) :
    ∃ evs, ( Manager.initializeBody w m h).hist = h ++ evs ∧ ∀ e ∈ evs, e.isSetup = true := by
  unfold Manager.initializeBody
  split
  · split
    · exact ⟨[Event.GetConfig], rfl, by simp [Event.isSetup]⟩
    · split
      · exact ⟨[Event.GetConfig, Event.ClientForConfig _], rfl, by simp [Event.isSetup]⟩
      · exact ⟨[Event.GetConfig, Event.ClientForConfig _], rfl, by simp [Event.isSetup]⟩
  · exact ⟨[], by simp, by simp⟩

theorem initialize_hist (w : World) (m : Manager) (h : List Event) :
    ∃ evs, ( Manager.initialize w m h).hist = h ++ evs ∧ ∀ e ∈ evs, e.isSetup = true := by
  unfold Manager.initialize
  split
  · exact ⟨[], by simp, by simp⟩
  · exact initializeBody_hist w m h

theorem initializeBody_of_client (w : World) (m : Manager) (h : List Event) (c : Client)
    (hc : m.Client = some c) :
    Manager.initializeBody w m h =
      ⟨none,
        { m with
          Timeout := if m.Timeout ≤ 0 then DefaultTimeout else m.Timeout
          OLMNamespace := if m.OLMNamespace = "" then DefaultOLMNamespace else m.OLMNamespace },
        h⟩ := by
  obtain ⟨cl, ver, t, ns, o⟩ := m
  simp only at hc
  subst hc
  unfold Manager.initializeBody
  by_cases ht : t ≤ 0 <;> by_cases hn : ns = "" <;> simp [ht, hn]

/-- What `Install` does once its `initialize` step has returned nil. -/
theorem Install_of_init (w : World) (m m1 : Manager) (h h1 : List Event)
    (hinit : Manager.initialize w m h = ⟨none, m1, h1⟩) :
    Manager.Install w m h =
      match w.InstallVersion h1 m1.Client m1.Timeout m1.OLMNamespace m1.Version with
      | Except.error err =>
        ⟨some err, m1, h1 ++ [Event.InstallVersion m1.Client m1.Timeout m1.OLMNamespace m1.Version]⟩
      | Except.ok status =>
        ⟨none, m1, h1 ++ [Event.InstallVersion m1.Client m1.Timeout m1.OLMNamespace m1.Version,
          Event.Infof "Successfully installed OLM version %q" m1.Version,
          Event.Print "\n", Event.Println status]⟩ := by
  simp only [Manager.Install, hinit]

/-- What `Install` does when its `initialize` step returns an error. -/
theorem Install_of_init_error (w : World) (m : Manager) (h : List Event) (e : GoError)
    (hinit : ( Manager.initialize w m h).err = some e) :
    Manager.Install w m h =
      ⟨some e, ( Manager.initialize w m h).mgr, ( Manager.initialize w m h).hist⟩ := by
  simp only [Manager.Install, hinit]

theorem Install_hist_of_init (w : World) (m m1 : Manager) (h h1 : List Event)
    (hinit : Manager.initialize w m h = ⟨none, m1, h1⟩) :
    ∃ out, ( Manager.Install w m h).hist =
        h1 ++ Event.InstallVersion m1.Client m1.Timeout m1.OLMNamespace m1.Version :: out ∧
      ∀ e ∈ out, e.isClientCall = false ∧ e.isSetup = false := by
  rw [Install_of_init w m m1 h h1 hinit]
  split
  · exact ⟨[], rfl, by simp⟩
  · exact ⟨[Event.Infof "Successfully installed OLM version %q" m1.Version,
      Event.Print "\n", Event.Println _], rfl, by simp [Event.isClientCall, Event.isSetup]⟩

theorem Install_err_of_init (w : World) (m m1 : Manager) (h h1 : List Event)
    (hinit : Manager.initialize w m h = ⟨none, m1, h1⟩) :
    ( Manager.Install w m h).err =
      match w.InstallVersion h1 m1.Client m1.Timeout m1.OLMNamespace m1.Version with
      | Except.error err => some err
      | Except.ok _ => none := by
  rw [Install_of_init w m m1 h h1 hinit]
  split <;> simp_all

theorem Install_mgr_of_init (w : World) (m m1 : Manager) (h h1 : List Event)
    (hinit : Manager.initialize w m h = ⟨none, m1, h1⟩) :
    ( Manager.Install w m h).mgr = m1 := by
  rw [Install_of_init w m m1 h h1 hinit]
  split <;> rfl

/-! ## Lemmas on `Uninstall` and `Status` -/

theorem uninstallFrom_mgr (w : World) (m : Manager) (h : List Event) :
    ( Manager.uninstallFrom w m h).mgr = m := by
  unfold Manager.uninstallFrom
  split <;> rfl

theorem uninstallFrom_err (w : World) (m : Manager) (h : List Event) :
    ( Manager.uninstallFrom w m h).err = w.UninstallVersion h m.Client m.Timeout m.Version := by
  unfold Manager.uninstallFrom
  split <;> simp_all

theorem uninstallFrom_hist (w : World) (m : Manager) (h : List Event) :
    ∃ out, ( Manager.uninstallFrom w m h).hist =
        h ++ Event.UninstallVersion m.Client m.Timeout m.Version :: out ∧
      ∀ e ∈ out, e.isClientCall = false ∧ e.isSetup = false := by
  unfold Manager.uninstallFrom
  split
  · exact ⟨[], rfl, by simp⟩
  · exact ⟨[Event.Infof "Successfully uninstalled OLM version %q" m.Version], rfl,
      by simp [Event.isClientCall, Event.isSetup]⟩

theorem statusFrom_mgr (w : World) (m : Manager) (h : List Event) :
    ( Manager.statusFrom w m h).mgr = m := by
  unfold Manager.statusFrom
  split <;> rfl

theorem statusFrom_err (w : World) (m : Manager) (h : List Event) :
    ( Manager.statusFrom w m h).err =
      match w.GetStatus h m.Client m.Timeout m.Version with
      | Except.error err => some err
      | Except.ok _ => none := by
  unfold Manager.statusFrom
  split <;> simp_all

theorem statusFrom_hist (w : World) (m : Manager) (h : List Event) :
    ∃ out, ( Manager.statusFrom w m h).hist =
        h ++ Event.GetStatus m.Client m.Timeout m.Version :: out ∧
      ∀ e ∈ out, e.isClientCall = false ∧ e.isSetup = false := by
  unfold Manager.statusFrom
  split
  · exact ⟨[], rfl, by simp⟩
  · exact ⟨[Event.Infof "Successfully got OLM status for version %q" m.Version,
      Event.Print "\n", Event.Println _], rfl, by simp [Event.isClientCall, Event.isSetup]⟩

/-- What `Uninstall` does once its `initialize` step has returned nil, by the
answer of the version query. -/
theorem Uninstall_of_init (w : World) (m m1 : Manager) (h h1 : List Event)
    (hinit : Manager.initialize w m h = ⟨none, m1, h1⟩) :
    Manager.Uninstall w m h =
      match w.GetInstalledVersion h1 m1.Client m1.Timeout m1.OLMNamespace with
      | Except.error err =>
        if m1.Version = "" then
          ⟨some (unresolvedError err), m1,
            h1 ++ [Event.GetInstalledVersion m1.Client m1.Timeout m1.OLMNamespace]⟩
        else
          Manager.uninstallFrom w m1
            (h1 ++ [Event.GetInstalledVersion m1.Client m1.Timeout m1.OLMNamespace])
      | Except.ok version =>
        if m1.Version = "" then
          Manager.uninstallFrom w { m1 with Version := version }
            (h1 ++ [Event.GetInstalledVersion m1.Client m1.Timeout m1.OLMNamespace])
        else if version = m1.Version then
          Manager.uninstallFrom w m1
            (h1 ++ [Event.GetInstalledVersion m1.Client m1.Timeout m1.OLMNamespace])
        else
          ⟨some (mismatchError version m1.Version), m1,
            h1 ++ [Event.GetInstalledVersion m1.Client m1.Timeout m1.OLMNamespace]⟩ := by
  simp only [Manager.Uninstall, hinit, Manager.uninstallFrom, unresolvedError, mismatchError]
  cases hq : w.GetInstalledVersion h1 m1.Client m1.Timeout m1.OLMNamespace with
  | error err =>
    by_cases hv : m1.Version = "" <;> simp [hv]
  | ok version =>
    by_cases hv : m1.Version = ""
    · simp [hv]
    · by_cases he : version = m1.Version <;> simp [hv, he]

/-- What `Status` does once its `initialize` step has returned nil, by the answer
of the version query. -/
theorem Status_of_init (w : World) (m m1 : Manager) (h h1 : List Event)
    (hinit : Manager.initialize w m h = ⟨none, m1, h1⟩) :
    Manager.Status w m h =
      match w.GetInstalledVersion h1 m1.Client m1.Timeout m1.OLMNamespace with
      | Except.error err =>
        if m1.Version = "" then
          ⟨some (unresolvedError err), m1,
            h1 ++ [Event.GetInstalledVersion m1.Client m1.Timeout m1.OLMNamespace]⟩
        else
          Manager.statusFrom w m1
            (h1 ++ [Event.GetInstalledVersion m1.Client m1.Timeout m1.OLMNamespace])
      | Except.ok version =>
        if m1.Version = "" then
          Manager.statusFrom w { m1 with Version := version }
            (h1 ++ [Event.GetInstalledVersion m1.Client m1.Timeout m1.OLMNamespace])
        else if version = m1.Version then
          Manager.statusFrom w m1
            (h1 ++ [Event.GetInstalledVersion m1.Client m1.Timeout m1.OLMNamespace])
        else
          ⟨some (mismatchError version m1.Version), m1,
            h1 ++ [Event.GetInstalledVersion m1.Client m1.Timeout m1.OLMNamespace]⟩ := by
  simp only [Manager.Status, hinit, Manager.statusFrom, unresolvedError, mismatchError]
  cases hq : w.GetInstalledVersion h1 m1.Client m1.Timeout m1.OLMNamespace with
  | error err =>
    by_cases hv : m1.Version = "" <;> simp [hv]
  | ok version =>
    by_cases hv : m1.Version = ""
    · simp [hv]
    · by_cases he : version = m1.Version <;> simp [hv, he]

theorem Version_of_init (w : World) (m m1 : Manager) (h h1 : List Event)
    (hinit : Manager.initialize w m h = ⟨none, m1, h1⟩) : m1.Version = m.Version := by
  have hv := initialize_Version w m h
  rw [hinit] at hv
  exact hv

/-! ## Lemmas on sequences of calls -/

/-- A call of any of the four methods on a `Manager` whose `sync.Once` is done
leaves Client, Timeout, OLMNamespace and the done flag as they are. -/
theorem call_frame_of_done (w : World) (op : Op) (m : Manager) (h : List Event)
    (hdone : m.once = true) :
    ( Manager.call w op m h).mgr.Client = m.Client ∧
    ( Manager.call w op m h).mgr.Timeout = m.Timeout ∧
    ( Manager.call w op m h).mgr.OLMNamespace = m.OLMNamespace ∧
    ( Manager.call w op m h).mgr.once = true := by
  have hinit := initialize_of_done w m h hdone
  cases op with
  | init =>
    have hc : Manager.call w Op.init m h = ⟨none, m, h⟩ := hinit
    rw [hc]
    exact ⟨rfl, rfl, rfl, hdone⟩
  | install =>
    simp only [Manager.call]
    rw [Install_of_init w m m h h hinit]
    split <;> exact ⟨rfl, rfl, rfl, hdone⟩
  | uninstall =>
    simp only [Manager.call]
    rw [Uninstall_of_init w m m h h hinit]
    split
    · split
      · exact ⟨rfl, rfl, rfl, hdone⟩
      · rw [uninstallFrom_mgr]; exact ⟨rfl, rfl, rfl, hdone⟩
    · split
      · rw [uninstallFrom_mgr]; exact ⟨rfl, rfl, rfl, hdone⟩
      · split
        · rw [uninstallFrom_mgr]; exact ⟨rfl, rfl, rfl, hdone⟩
        · exact ⟨rfl, rfl, rfl, hdone⟩
  | status =>
    simp only [Manager.call]
    rw [Status_of_init w m m h h hinit]
    split
    · split
      · exact ⟨rfl, rfl, rfl, hdone⟩
      · rw [statusFrom_mgr]; exact ⟨rfl, rfl, rfl, hdone⟩
    · split
      · rw [statusFrom_mgr]; exact ⟨rfl, rfl, rfl, hdone⟩
      · split
        · rw [statusFrom_mgr]; exact ⟨rfl, rfl, rfl, hdone⟩
        · exact ⟨rfl, rfl, rfl, hdone⟩

/-- Any sequence of calls on a `Manager` whose `sync.Once` is done leaves Client,
Timeout and OLMNamespace as they are. -/
theorem calls_frame_of_done (w : World) (ops : List Op) (m : Manager) (h : List Event)
    (hdone : m.once = true) :
    ( Manager.calls w ops m h).1.Client = m.Client ∧
    ( Manager.calls w ops m h).1.Timeout = m.Timeout ∧
    ( Manager.calls w ops m h).1.OLMNamespace = m.OLMNamespace := by
  induction ops generalizing m h with
  | nil => exact ⟨rfl, rfl, rfl⟩
  | cons op ops ih =>
    obtain ⟨hc, ht, hn, ho⟩ := call_frame_of_done w op m h hdone
    obtain ⟨ic, it, ins⟩ := ih ( Manager.call w op m h).mgr ( Manager.call w op m h).hist ho
    simp only [Manager.calls]
    exact ⟨ic.trans hc, it.trans ht, ins.trans hn⟩

/-- After a first run of the body of `initialize` that returns nil, Client is
non-nil, Timeout is positive and OLMNamespace is non-empty. -/
theorem initializeBody_ready (w : World) (m : Manager) (h : List Event)
    (hok : ( Manager.initializeBody w m h).err = none) :
    ( Manager.initializeBody w m h).mgr.Client ≠ none ∧
    0 < ( Manager.initializeBody w m h).mgr.Timeout ∧
    ( Manager.initializeBody w m h).mgr.OLMNamespace ≠ "" := by
  obtain ⟨cl, ver, t, ns, o⟩ := m
  have hd : (0 : Int) < DefaultTimeout := by decide
  have hn : DefaultOLMNamespace ≠ "" := by decide
  unfold Manager.initializeBody at hok ⊢
  cases cl with
  | none =>
    simp only at hok ⊢
    cases hcfg : w.GetConfig h with
    | error cerr => simp [hcfg] at hok
    | ok cfg =>
      simp only [hcfg] at hok ⊢
      cases hcl : w.ClientForConfig (h ++ [Event.GetConfig]) cfg with
      | error cerr => simp [hcl] at hok
      | ok client =>
        simp only [hcl]
        by_cases ht : t ≤ 0 <;> by_cases hns : ns = "" <;> simp [ht, hns, hd, hn] <;> omega
  | some c =>
    simp only
    by_cases ht : t ≤ 0 <;> by_cases hns : ns = "" <;> simp [ht, hns, hd, hn] <;> omega

theorem init_eq_of_ok (w : World) (m : Manager) (h : List Event)
    (hok : ( Manager.initialize w m h).err = none) :
    Manager.initialize w m h =
      ⟨none, ( Manager.initialize w m h).mgr, ( Manager.initialize w m h).hist⟩ := by
  cases hi : Manager.initialize w m h with
  | mk err mgr hist =>
    rw [hi] at hok
    simp only at hok
    rw [hok]

/-! ## Lemmas on the text of an error -/

theorem startsWithChars_iff (text pat : List Char) :
    startsWithChars text pat = true ↔ ∃ post, text = pat ++ post := by
  induction pat generalizing text with
  | nil => simp [startsWithChars]
  | cons c pat ih =>
    cases text with
    | nil => simp [startsWithChars]
    | cons t text =>
      simp only [startsWithChars, Bool.and_eq_true, beq_iff_eq, ih, List.cons_append,
        List.cons.injEq]
      constructor
      · rintro ⟨rfl, post, rfl⟩
        exact ⟨post, rfl, rfl⟩
      · rintro ⟨post, rfl, rfl⟩
        exact ⟨rfl, post, rfl⟩

theorem containsChars_iff (text pat : List Char) :
    containsChars text pat = true ↔ ∃ pre post, text = pre ++ pat ++ post := by
  induction text with
  | nil =>
    simp only [containsChars, startsWithChars_iff]
    constructor
    · rintro ⟨post, hp⟩
      exact ⟨[], post, by simpa using hp⟩
    · rintro ⟨pre, post, hp⟩
      have h1 : pre = [] ∧ pat = [] ∧ post = [] := by
        have := hp.symm
        simp only [List.append_eq_nil] at this
        exact ⟨this.1.1, this.1.2, this.2⟩
      exact ⟨[], by simp [h1.2.1]⟩
  | cons t text ih =>
    simp only [containsChars, Bool.or_eq_true, startsWithChars_iff, ih]
    constructor
    · rintro (⟨post, hp⟩ | ⟨pre, post, hp⟩)
      · exact ⟨[], post, by simpa using hp⟩
      · exact ⟨t :: pre, post, by simp [hp]⟩
    · rintro ⟨pre, post, hp⟩
      cases pre with
      | nil => exact Or.inl ⟨post, by simpa using hp⟩
      | cons x pre =>
        simp only [List.cons_append, List.cons.injEq] at hp
        exact Or.inr ⟨pre, post, hp.2⟩

theorem textContains_iff (msg s : String) :
    textContains msg s = true ↔ ∃ pre post : List Char, msg.data = pre ++ s.data ++ post :=
  containsChars_iff msg.data s.data

theorem escapeChars_of_plain (isPrintTable : Char → Bool) (cs : List Char)
    (hplain : ∀ r ∈ cs, appendEscapedRune isPrintTable r = [r]) :
    escapeChars isPrintTable cs = cs := by
  induction cs with
  | nil => rfl
  | cons r rest ih =>
    have h1 := hplain r (List.mem_cons_self r rest)
    have h2 := ih (fun x hx => hplain x (List.mem_cons_of_mem r hx))
    simp [escapeChars, h1, h2]

theorem quote_of_plainText (isPrintTable : Char → Bool) (s : String)
    (hplain : plainText isPrintTable s = true) :
    (quote isPrintTable s).data = '"' :: s.data ++ ['"'] := by
  have h : ∀ r ∈ s.data, appendEscapedRune isPrintTable r = [r] := by
    simpa [plainText] using hplain
  simp [quote, escapeChars_of_plain isPrintTable s.data h]

/-- The text of the error of lines 104 and 132. -/
theorem mismatch_message (isPrintTable : Char → Bool) (installed supplied : String) :
    GoError.message isPrintTable
        (GoError.Errorf "mismatched installed version %q vs. supplied version %q"
          [installed, supplied] []) =
      some ("mismatched installed version " ++ quote isPrintTable installed ++
        " vs. supplied version " ++ quote isPrintTable supplied) := by
  simp [GoError.message, GoError.messages, sprintfChars, String.ext_iff]

/-- The text of the mismatch error holds both operands in their quoted form, and
an operand itself when `%q` changes none of its runes. -/
theorem mismatch_text_contains (isPrintTable : Char → Bool) (installed supplied : String) :
    textContains ("mismatched installed version " ++ quote isPrintTable installed ++
        " vs. supplied version " ++ quote isPrintTable supplied)
      (quote isPrintTable installed) = true ∧
    textContains ("mismatched installed version " ++ quote isPrintTable installed ++
        " vs. supplied version " ++ quote isPrintTable supplied)
      (quote isPrintTable supplied) = true ∧
    (plainText isPrintTable installed = true →
      textContains ("mismatched installed version " ++ quote isPrintTable installed ++
          " vs. supplied version " ++ quote isPrintTable supplied) installed = true) ∧
    (plainText isPrintTable supplied = true →
      textContains ("mismatched installed version " ++ quote isPrintTable installed ++
          " vs. supplied version " ++ quote isPrintTable supplied) supplied = true) := by
  refine ⟨?_, ?_, ?_, ?_⟩
  · rw [textContains_iff]
    exact ⟨"mismatched installed version ".data,
      " vs. supplied version ".data ++ (quote isPrintTable supplied).data, by
        simp [String.data_append]⟩
  · rw [textContains_iff]
    exact ⟨"mismatched installed version ".data ++ (quote isPrintTable installed).data ++
      " vs. supplied version ".data, [], by simp [String.data_append]⟩
  · intro hplain
    rw [textContains_iff]
    exact ⟨"mismatched installed version ".data ++ ['"'],
      '"' :: (" vs. supplied version ".data ++ (quote isPrintTable supplied).data), by
        simp [String.data_append, quote_of_plainText isPrintTable installed hplain]⟩
  · intro hplain
    rw [textContains_iff]
    exact ⟨"mismatched installed version ".data ++ (quote isPrintTable installed).data ++
      " vs. supplied version ".data ++ ['"'], ['"'], by
        simp [String.data_append, quote_of_plainText isPrintTable supplied hplain]⟩

/-! ## The claims -/

/-- C1: for a requested version `r` (the Manager's Version on entry) and an answer
`q` of GetInstalledVersion, the reconciliation of Uninstall and of Status has
exactly one outcome.  It fails (the operation returns an error and the history ends
with the query) if and only if `q` succeeded with a version different from a
non-empty `r`, or `q` failed and `r` is empty; the two operations then return the
same error and leave the Manager as initialization left it.  Otherwise both proceed
with the effective version: the installed one when `q` succeeded and `r` is empty,
`r` in every remaining case; that version is stored in the Manager and is the
argument of the UninstallVersion (resp. GetStatus) call, which is the first event
after the query.  Before the query only configuration discovery and client
construction may have happened. -/
theorem reconciliation_outcome (w : World) (m m1 : Manager) (h h1 : List Event)
    (hinit : Manager.initialize w m h = ⟨none, m1, h1⟩) :
    let r := m.Version
    let q := w.GetInstalledVersion h1 m1.Client m1.Timeout m1.OLMNamespace
    let h2 := h1 ++ [Event.GetInstalledVersion m1.Client m1.Timeout m1.OLMNamespace]
    let fails : Prop :=
      (∃ v, q = Except.ok v ∧ r ≠ "" ∧ r ≠ v) ∨ (∃ e, q = Except.error e ∧ r = "")
    let eff : String :=
      match q with
      | Except.ok v => if r = "" then v else r
      | Except.error _ => r
    (∃ evs, h1 = h ++ evs ∧ ∀ e ∈ evs, e.isSetup = true) ∧
    (fails ↔
      (( Manager.Uninstall w m h).err.isSome = true ∧ ( Manager.Uninstall w m h).hist = h2)) ∧
    (fails ↔
      (( Manager.Status w m h).err.isSome = true ∧ ( Manager.Status w m h).hist = h2)) ∧
    (fails →
      ( Manager.Uninstall w m h).mgr = m1 ∧ ( Manager.Status w m h).mgr = m1 ∧
      ( Manager.Uninstall w m h).err = ( Manager.Status w m h).err) ∧
    (¬ fails →
      ( Manager.Uninstall w m h).mgr = { m1 with Version := eff } ∧
      ( Manager.Status w m h).mgr = { m1 with Version := eff } ∧
      (∃ out, ( Manager.Uninstall w m h).hist =
          h2 ++ Event.UninstallVersion m1.Client m1.Timeout eff :: out ∧
        ∀ e ∈ out, e.isClientCall = false ∧ e.isSetup = false) ∧
      (∃ out, ( Manager.Status w m h).hist =
          h2 ++ Event.GetStatus m1.Client m1.Timeout eff :: out ∧
        ∀ e ∈ out, e.isClientCall = false ∧ e.isSetup = false)) := by
  dsimp only
  have hv := Version_of_init w m m1 h h1 hinit
  have hh : ∃ evs, h1 = h ++ evs ∧ ∀ e ∈ evs, e.isSetup = true := by
    have := initialize_hist w m h
    rw [hinit] at this
    exact this
  refine ⟨hh, ?_⟩
  rw [Uninstall_of_init w m m1 h h1 hinit, Status_of_init w m m1 h h1 hinit, ← hv]
  cases hq : w.GetInstalledVersion h1 m1.Client m1.Timeout m1.OLMNamespace with
  | error err =>
    by_cases hr : m1.Version = ""
    · simp [hr]
    · have hU := uninstallFrom_hist w m1
        (h1 ++ [Event.GetInstalledVersion m1.Client m1.Timeout m1.OLMNamespace])
      have hS := statusFrom_hist w m1
        (h1 ++ [Event.GetInstalledVersion m1.Client m1.Timeout m1.OLMNamespace])
      obtain ⟨outU, hU1, hU2⟩ := hU
      obtain ⟨outS, hS1, hS2⟩ := hS
      simp only [hr, if_false, uninstallFrom_mgr, statusFrom_mgr, hU1, hS1]
      simp
      exact ⟨hU2, hS2⟩
  | ok version =>
    by_cases hr : m1.Version = ""
    · have hU := uninstallFrom_hist w { m1 with Version := version }
        (h1 ++ [Event.GetInstalledVersion m1.Client m1.Timeout m1.OLMNamespace])
      have hS := statusFrom_hist w { m1 with Version := version }
        (h1 ++ [Event.GetInstalledVersion m1.Client m1.Timeout m1.OLMNamespace])
      obtain ⟨outU, hU1, hU2⟩ := hU
      obtain ⟨outS, hS1, hS2⟩ := hS
      simp only [hr, if_true, uninstallFrom_mgr, statusFrom_mgr, hU1, hS1]
      simp
      exact ⟨hU2, hS2⟩
    · by_cases he : version = m1.Version
      · have hU := uninstallFrom_hist w m1
          (h1 ++ [Event.GetInstalledVersion m1.Client m1.Timeout m1.OLMNamespace])
        have hS := statusFrom_hist w m1
          (h1 ++ [Event.GetInstalledVersion m1.Client m1.Timeout m1.OLMNamespace])
        obtain ⟨outU, hU1, hU2⟩ := hU
        obtain ⟨outS, hS1, hS2⟩ := hS
        simp only [hr, he, if_false, if_true, uninstallFrom_mgr, statusFrom_mgr, hU1, hS1]
        simp
        exact ⟨hU2, hS2⟩
      · have he2 : ¬ m1.Version = version := fun hx => he hx.symm
        simp [hr, he, he2]

/-- C2 (amended): when initialization has succeeded, GetInstalledVersion answers
`v` and the Manager's Version `r` is non-empty and different from `v`, both
Uninstall and Status return the mismatch error built from the operands `v` and
`r`, the history ends with the version query (so UninstallVersion, resp.
GetStatus, is not called; before the query only configuration discovery and
client construction happened), and the Manager's Version is still `r`.  The text
of the error is "mismatched installed version ", the `%q` form of `v`,
" vs. supplied version ", the `%q` form of `r`: it contains the quoted forms of
both, and it contains `v` (resp. `r`) itself whenever `%q` changes none of its
runes. -/
theorem version_mismatch_rejected (w : World) (m m1 : Manager) (h h1 : List Event) (v : String)
    (hinit : Manager.initialize w m h = ⟨none, m1, h1⟩)
    (hq : w.GetInstalledVersion h1 m1.Client m1.Timeout m1.OLMNamespace = Except.ok v)
    (hne : m.Version ≠ "") (hdiff : m.Version ≠ v) :
    ( Manager.Uninstall w m h).err =
      some (GoError.Errorf "mismatched installed version %q vs. supplied version %q"
        [v, m.Version] []) ∧
    ( Manager.Status w m h).err =
      some (GoError.Errorf "mismatched installed version %q vs. supplied version %q"
        [v, m.Version] []) ∧
    ( Manager.Uninstall w m h).hist =
      h1 ++ [Event.GetInstalledVersion m1.Client m1.Timeout m1.OLMNamespace] ∧
    ( Manager.Status w m h).hist =
      h1 ++ [Event.GetInstalledVersion m1.Client m1.Timeout m1.OLMNamespace] ∧
    (∃ evs, h1 = h ++ evs ∧ ∀ e ∈ evs, e.isSetup = true) ∧
    ( Manager.Uninstall w m h).mgr.Version = m.Version ∧
    ( Manager.Status w m h).mgr.Version = m.Version ∧
    ∀ isPrintTable : Char → Bool,
      ( Manager.Uninstall w m h).err.bind (GoError.message isPrintTable) =
        some ("mismatched installed version " ++ quote isPrintTable v ++
          " vs. supplied version " ++ quote isPrintTable m.Version) ∧
      ( Manager.Status w m h).err.bind (GoError.message isPrintTable) =
        some ("mismatched installed version " ++ quote isPrintTable v ++
          " vs. supplied version " ++ quote isPrintTable m.Version) ∧
      textContains ("mismatched installed version " ++ quote isPrintTable v ++
          " vs. supplied version " ++ quote isPrintTable m.Version)
        (quote isPrintTable v) = true ∧
      textContains ("mismatched installed version " ++ quote isPrintTable v ++
          " vs. supplied version " ++ quote isPrintTable m.Version)
        (quote isPrintTable m.Version) = true ∧
      (plainText isPrintTable v = true →
        textContains ("mismatched installed version " ++ quote isPrintTable v ++
          " vs. supplied version " ++ quote isPrintTable m.Version) v = true) ∧
      (plainText isPrintTable m.Version = true →
        textContains ("mismatched installed version " ++ quote isPrintTable v ++
          " vs. supplied version " ++ quote isPrintTable m.Version) m.Version = true) := by
  have hv := Version_of_init w m m1 h h1 hinit
  have hh : ∃ evs, h1 = h ++ evs ∧ ∀ e ∈ evs, e.isSetup = true := by
    have := initialize_hist w m h
    rw [hinit] at this
    exact this
  rw [← hv] at hne hdiff
  have he : ¬ v = m1.Version := fun hx => hdiff hx.symm
  rw [Uninstall_of_init w m m1 h h1 hinit, Status_of_init w m m1 h h1 hinit, hq, ← hv]
  simp only [hne, he, if_false, mismatchError]
  refine ⟨?_, ?_, ?_, ?_, hh, ?_, ?_, ?_⟩ <;> first | rfl | trivial | skip
  intro isPrintTable
  have hmsg := mismatch_message isPrintTable v m1.Version
  obtain ⟨c1, c2, c3, c4⟩ := mismatch_text_contains isPrintTable v m1.Version
  exact ⟨by simpa using hmsg, by simpa using hmsg, c1, c2, c3, c4⟩

/-- C2 as stated fails at installed = 1.2.0 and requested = 1.3.0 followed by a
line feed: Uninstall and Status return the mismatch error, whose text renders the
line feed as a backslash and the letter n, so the text does not contain the
requested version. -/
theorem version_mismatch_text_omits_requested :
    Manager.initialize (clusterWith (Except.ok "1.2.0") none)
        (newManager none "1.3.0\n" 0 "") [] =
      ⟨none, ⟨some ⟨1⟩, "1.3.0\n", 120000000000, "olm", true⟩,
        [Event.GetConfig, Event.ClientForConfig ⟨0⟩]⟩ ∧
    ( Manager.Uninstall (clusterWith (Except.ok "1.2.0") none)
        (newManager none "1.3.0\n" 0 "") []).err =
      some (GoError.Errorf "mismatched installed version %q vs. supplied version %q"
        ["1.2.0", "1.3.0\n"] []) ∧
    ( Manager.Status (clusterWith (Except.ok "1.2.0") none)
        (newManager none "1.3.0\n" 0 "") []).err =
      some (GoError.Errorf "mismatched installed version %q vs. supplied version %q"
        ["1.2.0", "1.3.0\n"] []) ∧
    (∀ isPrintTable : Char → Bool,
      GoError.message isPrintTable
          (GoError.Errorf "mismatched installed version %q vs. supplied version %q"
            ["1.2.0", "1.3.0\n"] []) =
        some "mismatched installed version \"1.2.0\" vs. supplied version \"1.3.0\\n\"") ∧
    textContains "mismatched installed version \"1.2.0\" vs. supplied version \"1.3.0\\n\""
      "1.3.0\n" = false ∧
    textContains "mismatched installed version \"1.2.0\" vs. supplied version \"1.3.0\\n\""
      "1.2.0" = true := by
  refine ⟨rfl, rfl, rfl, ?_, ?_, ?_⟩
  · intro isPrintTable
    rw [mismatch_message]
    rfl
  · decide
  · decide

/-- C3: when initialization has succeeded, the Manager's Version is empty and
GetInstalledVersion answers `v`, the next event of Uninstall (resp. Status) is the
UninstallVersion (resp. GetStatus) call with exactly `v`, no other client call
follows, the operation returns what that call answers, and the Manager's Version is
`v` afterwards, whatever that call answers. -/
theorem installed_version_adopted (w : World) (m m1 : Manager) (h h1 : List Event) (v : String)
    (hinit : Manager.initialize w m h = ⟨none, m1, h1⟩)
    (hq : w.GetInstalledVersion h1 m1.Client m1.Timeout m1.OLMNamespace = Except.ok v)
    (hempty : m.Version = "") :
    ( Manager.Uninstall w m h).mgr.Version = v ∧
    ( Manager.Status w m h).mgr.Version = v ∧
    (∃ out, ( Manager.Uninstall w m h).hist =
        h1 ++ [Event.GetInstalledVersion m1.Client m1.Timeout m1.OLMNamespace] ++
          Event.UninstallVersion m1.Client m1.Timeout v :: out ∧
      ∀ e ∈ out, e.isClientCall = false ∧ e.isSetup = false) ∧
    (∃ out, ( Manager.Status w m h).hist =
        h1 ++ [Event.GetInstalledVersion m1.Client m1.Timeout m1.OLMNamespace] ++
          Event.GetStatus m1.Client m1.Timeout v :: out ∧
      ∀ e ∈ out, e.isClientCall = false ∧ e.isSetup = false) ∧
    ( Manager.Uninstall w m h).err =
      w.UninstallVersion (h1 ++ [Event.GetInstalledVersion m1.Client m1.Timeout m1.OLMNamespace])
        m1.Client m1.Timeout v ∧
    ( Manager.Status w m h).err =
      (match w.GetStatus (h1 ++ [Event.GetInstalledVersion m1.Client m1.Timeout m1.OLMNamespace])
          m1.Client m1.Timeout v with
        | Except.error err => some err
        | Except.ok _ => none) := by
  have hv := Version_of_init w m m1 h h1 hinit
  rw [← hv] at hempty
  rw [Uninstall_of_init w m m1 h h1 hinit, Status_of_init w m m1 h h1 hinit, hq]
  simp only [hempty, if_true]
  refine ⟨?_, ?_, ?_, ?_, ?_, ?_⟩
  · rw [uninstallFrom_mgr]
  · rw [statusFrom_mgr]
  · exact uninstallFrom_hist w { m1 with Version := v } _
  · exact statusFrom_hist w { m1 with Version := v } _
  · exact uninstallFrom_err w { m1 with Version := v } _
  · exact statusFrom_err w { m1 with Version := v } _

/-- C4: when initialization has succeeded, the Manager's Version is empty and
GetInstalledVersion fails with `e`, both Uninstall and Status return the error
that wraps `e`, the history ends with the version query (so UninstallVersion, resp.
GetStatus, is not called), and the Manager's Version is still empty. -/
theorem unresolvable_version_rejected (w : World) (m m1 : Manager) (h h1 : List Event)
    (e : GoError)
    (hinit : Manager.initialize w m h = ⟨none, m1, h1⟩)
    (hq : w.GetInstalledVersion h1 m1.Client m1.Timeout m1.OLMNamespace = Except.error e)
    (hempty : m.Version = "") :
    ( Manager.Uninstall w m h).err =
      some (GoError.Errorf
        "error getting installed OLM version (set --version to override the default version): %v"
        [] [e]) ∧
    ( Manager.Status w m h).err =
      some (GoError.Errorf
        "error getting installed OLM version (set --version to override the default version): %v"
        [] [e]) ∧
    ( Manager.Uninstall w m h).hist =
      h1 ++ [Event.GetInstalledVersion m1.Client m1.Timeout m1.OLMNamespace] ∧
    ( Manager.Status w m h).hist =
      h1 ++ [Event.GetInstalledVersion m1.Client m1.Timeout m1.OLMNamespace] ∧
    (∃ evs, h1 = h ++ evs ∧ ∀ e ∈ evs, e.isSetup = true) ∧
    ( Manager.Uninstall w m h).mgr.Version = "" ∧
    ( Manager.Status w m h).mgr.Version = "" := by
  have hv := Version_of_init w m m1 h h1 hinit
  have hh : ∃ evs, h1 = h ++ evs ∧ ∀ e ∈ evs, e.isSetup = true := by
    have := initialize_hist w m h
    rw [hinit] at this
    exact this
  rw [← hv] at hempty
  rw [Uninstall_of_init w m m1 h h1 hinit, Status_of_init w m m1 h h1 hinit, hq]
  simp only [hempty, if_true, unresolvedError]
  refine ⟨?_, ?_, ?_, ?_, hh, ?_, ?_⟩ <;> first | rfl | trivial

/-- C5: when initialization has succeeded, the Manager's Version `r` is non-empty
and GetInstalledVersion fails with any error `e`, the next event of Uninstall (resp.
Status) is the UninstallVersion (resp. GetStatus) call with exactly `r`, no other
client call follows, the operation returns exactly what that call answers (nil on
success, the call's own error otherwise, `e` appearing nowhere), and the Manager's
Version is still `r`. -/
theorem query_failure_overridden (w : World) (m m1 : Manager) (h h1 : List Event) (e : GoError)
    (hinit : Manager.initialize w m h = ⟨none, m1, h1⟩)
    (hq : w.GetInstalledVersion h1 m1.Client m1.Timeout m1.OLMNamespace = Except.error e)
    (hne : m.Version ≠ "") :
    (∃ out, ( Manager.Uninstall w m h).hist =
        h1 ++ [Event.GetInstalledVersion m1.Client m1.Timeout m1.OLMNamespace] ++
          Event.UninstallVersion m1.Client m1.Timeout m.Version :: out ∧
      ∀ e ∈ out, e.isClientCall = false ∧ e.isSetup = false) ∧
    (∃ out, ( Manager.Status w m h).hist =
        h1 ++ [Event.GetInstalledVersion m1.Client m1.Timeout m1.OLMNamespace] ++
          Event.GetStatus m1.Client m1.Timeout m.Version :: out ∧
      ∀ e ∈ out, e.isClientCall = false ∧ e.isSetup = false) ∧
    ( Manager.Uninstall w m h).err =
      w.UninstallVersion (h1 ++ [Event.GetInstalledVersion m1.Client m1.Timeout m1.OLMNamespace])
        m1.Client m1.Timeout m.Version ∧
    ( Manager.Status w m h).err =
      (match w.GetStatus (h1 ++ [Event.GetInstalledVersion m1.Client m1.Timeout m1.OLMNamespace])
          m1.Client m1.Timeout m.Version with
        | Except.error err => some err
        | Except.ok _ => none) ∧
    ( Manager.Uninstall w m h).mgr.Version = m.Version ∧
    ( Manager.Status w m h).mgr.Version = m.Version := by
  have hv := Version_of_init w m m1 h h1 hinit
  rw [← hv] at hne
  rw [Uninstall_of_init w m m1 h h1 hinit, Status_of_init w m m1 h h1 hinit, hq, ← hv]
  simp only [hne, if_false]
  refine ⟨?_, ?_, ?_, ?_, ?_, ?_⟩
  · exact uninstallFrom_hist w m1 _
  · exact statusFrom_hist w m1 _
  · exact uninstallFrom_err w m1 _
  · exact statusFrom_err w m1 _
  · rw [uninstallFrom_mgr]
  · rw [statusFrom_mgr]

/-- C6 (evaluation at the failing input): on a Manager without a client, in a world
where configuration discovery fails, the first Install returns the configuration
error; a second `initialize` on that same Manager returns nil, and a second Install
goes on to call InstallVersion on the nil client with the undefaulted timeout and
namespace and returns that call's answer, not the initialization error.  A second
Uninstall likewise queries the installed version and calls UninstallVersion on the
nil client. -/
theorem failed_initialize_not_replayed :
    ( Manager.Install
        (World.fixed (Except.error (GoError.remote "no kubeconfig")) (Except.ok ⟨1⟩)
          (Except.error (GoError.remote "nil client")) (Except.ok "1.2.0") none (Except.ok "ok"))
        (newManager none "" 0 "") []) =
      ⟨some (GoError.Errorf "failed to get Kubernetes config: %v" []
          [GoError.remote "no kubeconfig"]),
        ⟨none, "", 0, "", true⟩, [Event.GetConfig]⟩ ∧
    ( Manager.initialize
        (World.fixed (Except.error (GoError.remote "no kubeconfig")) (Except.ok ⟨1⟩)
          (Except.error (GoError.remote "nil client")) (Except.ok "1.2.0") none (Except.ok "ok"))
        ⟨none, "", 0, "", true⟩ [Event.GetConfig]) =
      ⟨none, ⟨none, "", 0, "", true⟩, [Event.GetConfig]⟩ ∧
    ( Manager.Install
        (World.fixed (Except.error (GoError.remote "no kubeconfig")) (Except.ok ⟨1⟩)
          (Except.error (GoError.remote "nil client")) (Except.ok "1.2.0") none (Except.ok "ok"))
        ⟨none, "", 0, "", true⟩ [Event.GetConfig]) =
      ⟨some (GoError.remote "nil client"), ⟨none, "", 0, "", true⟩,
        [Event.GetConfig, Event.InstallVersion none 0 "" ""]⟩ ∧
    ( Manager.Uninstall
        (World.fixed (Except.error (GoError.remote "no kubeconfig")) (Except.ok ⟨1⟩)
          (Except.error (GoError.remote "nil client")) (Except.ok "1.2.0") none (Except.ok "ok"))
        ⟨none, "", 0, "", true⟩ [Event.GetConfig]) =
      ⟨none, ⟨none, "1.2.0", 0, "", true⟩,
        [Event.GetConfig, Event.GetInstalledVersion none 0 "",
          Event.UninstallVersion none 0 "1.2.0",
          Event.Infof "Successfully uninstalled OLM version %q" "1.2.0"]⟩ := by
  refine ⟨?_, ?_, ?_, ?_⟩ <;> rfl

/-- C7: once `initialize` has been called on a Manager (whatever that call
returned), a further call returns nil, adds nothing to the history (no
configuration discovery, no client construction) and leaves the Manager exactly as
it is; this holds for the Manager as the first call left it and for any values its
Client, Version, Timeout and OLMNamespace may hold by then, nil, non-positive and
empty ones included. -/
theorem initialize_idempotent (w : World) (m : Manager) (h : List Event)
    (w2 : World) (client : Option Client) (version : String) (timeout : Int) (ns : String)
    (h2 : List Event) :
    Manager.initialize w2 ( Manager.initialize w m h).mgr h2 =
      ⟨none, ( Manager.initialize w m h).mgr, h2⟩ ∧
    Manager.initialize w2 ⟨client, version, timeout, ns, ( Manager.initialize w m h).mgr.once⟩ h2 =
      ⟨none, ⟨client, version, timeout, ns, ( Manager.initialize w m h).mgr.once⟩, h2⟩ := by
  constructor
  · exact initialize_of_done w2 _ h2 (initialize_once w m h)
  · exact initialize_of_done w2 _ h2 (initialize_once w m h)

/-- C8: when the first `initialize` on a Manager returns nil, Client is non-nil,
Timeout is strictly positive and OLMNamespace is non-empty, and every later
sequence of `initialize`, Install, Uninstall and Status calls on that Manager, in
any world and from any history, leaves these three fields unchanged. -/
theorem ready_fields_stable (w : World) (m : Manager) (h : List Event)
    (hfirst : m.once = false) (hok : ( Manager.initialize w m h).err = none) :
    ( Manager.initialize w m h).mgr.Client ≠ none ∧
    0 < ( Manager.initialize w m h).mgr.Timeout ∧
    ( Manager.initialize w m h).mgr.OLMNamespace ≠ "" ∧
    ∀ (w2 : World) (ops : List Op) (h2 : List Event),
      ( Manager.calls w2 ops ( Manager.initialize w m h).mgr h2).1.Client =
        ( Manager.initialize w m h).mgr.Client ∧
      ( Manager.calls w2 ops ( Manager.initialize w m h).mgr h2).1.Timeout =
        ( Manager.initialize w m h).mgr.Timeout ∧
      ( Manager.calls w2 ops ( Manager.initialize w m h).mgr h2).1.OLMNamespace =
        ( Manager.initialize w m h).mgr.OLMNamespace := by
  have hbody : ( Manager.initializeBody w m h).err = none := by
    simpa [ Manager.initialize, hfirst] using hok
  obtain ⟨hc, ht, hn⟩ := initializeBody_ready w m h hbody
  have hm : ( Manager.initialize w m h).mgr =
      { ( Manager.initializeBody w m h).mgr with once := true } := by
    simp [ Manager.initialize, hfirst]
  refine ⟨?_, ?_, ?_, ?_⟩
  · rw [hm]; exact hc
  · rw [hm]; exact ht
  · rw [hm]; exact hn
  · intro w2 ops h2
    exact calls_frame_of_done w2 ops _ h2 (initialize_once w m h)

/-- C9: `initialize` leaves the Manager's Version unchanged for every input, and
so does Install, whatever InstallVersion answers; Install adds no
GetInstalledVersion call to the history; and when its `initialize` step returns nil,
the next event is the InstallVersion call with the configured namespace and exactly
the Version the caller supplied (the empty string included), no other client call
follows, and Install returns nil when that call succeeds and the call's own error
otherwise. -/
theorem version_never_defaulted (w : World) (m : Manager) (h : List Event) :
    ( Manager.initialize w m h).mgr.Version = m.Version ∧
    ( Manager.Install w m h).mgr.Version = m.Version ∧
    (∃ evs, ( Manager.Install w m h).hist = h ++ evs ∧
      ∀ e ∈ evs, ∀ recv t ns, e ≠ Event.GetInstalledVersion recv t ns) ∧
    (( Manager.initialize w m h).err = none →
      (∃ out, ( Manager.Install w m h).hist =
          ( Manager.initialize w m h).hist ++
            Event.InstallVersion ( Manager.initialize w m h).mgr.Client
              ( Manager.initialize w m h).mgr.Timeout
              ( Manager.initialize w m h).mgr.OLMNamespace m.Version :: out ∧
        ∀ e ∈ out, e.isClientCall = false ∧ e.isSetup = false) ∧
      ( Manager.Install w m h).err =
        (match w.InstallVersion ( Manager.initialize w m h).hist
            ( Manager.initialize w m h).mgr.Client ( Manager.initialize w m h).mgr.Timeout
            ( Manager.initialize w m h).mgr.OLMNamespace m.Version with
          | Except.error err => some err
          | Except.ok _ => none)) := by
  have hv := initialize_Version w m h
  obtain ⟨evs, hh, hs⟩ := initialize_hist w m h
  have hsetup : ∀ e ∈ evs, ∀ recv t ns, e ≠ Event.GetInstalledVersion recv t ns := by
    intro e he recv t ns heq
    have := hs e he
    rw [heq] at this
    simp [Event.isSetup] at this
  cases hi : ( Manager.initialize w m h).err with
  | some e =>
    rw [Install_of_init_error w m h e hi]
    refine ⟨hv, hv, ⟨evs, hh, hsetup⟩, ?_⟩
    intro hcontra
    cases hcontra
  | none =>
    have hinit := init_eq_of_ok w m h hi
    obtain ⟨out, ho, hout⟩ := Install_hist_of_init w m _ h _ hinit
    have he := Install_err_of_init w m _ h _ hinit
    have hm := Install_mgr_of_init w m _ h _ hinit
    rw [hv] at ho he
    refine ⟨hv, ?_, ?_, ?_⟩
    · rw [hm]; exact hv
    · refine ⟨evs ++ Event.InstallVersion ( Manager.initialize w m h).mgr.Client
          ( Manager.initialize w m h).mgr.Timeout ( Manager.initialize w m h).mgr.OLMNamespace
          m.Version :: out, ?_, ?_⟩
      · rw [ho, hh, List.append_assoc]
      · intro e hmem recv t ns heq
        rcases List.mem_append.mp hmem with h1 | h1
        · exact hsetup e h1 recv t ns heq
        · rcases List.mem_cons.mp h1 with h2 | h2
          · rw [heq] at h2
            cases h2
          · have := (hout e h2).1
            rw [heq] at this
            simp [Event.isClientCall] at this
    · intro _
      exact ⟨⟨out, ho, hout⟩, he⟩

/-- C10: the first `initialize` on a Manager whose Client was supplied returns nil
without any configuration discovery or client construction, keeps that Client and
the Version, sets Timeout to two minutes exactly when the supplied Timeout is not
positive and keeps it otherwise, and sets OLMNamespace to "olm" exactly when the
supplied namespace is empty and keeps it otherwise; each default is decided on its
own field only. -/
theorem initialize_defaults_with_client (w : World) (m : Manager) (h : List Event) (c : Client)
    (hfirst : m.once = false) (hc : m.Client = some c) :
    ( Manager.initialize w m h).err = none ∧
    ( Manager.initialize w m h).hist = h ∧
    ( Manager.initialize w m h).mgr.Client = some c ∧
    ( Manager.initialize w m h).mgr.Version = m.Version ∧
    ( Manager.initialize w m h).mgr.Timeout =
      (if m.Timeout ≤ 0 then 2 * 60 * 1000000000 else m.Timeout) ∧
    ( Manager.initialize w m h).mgr.OLMNamespace =
      (if m.OLMNamespace = "" then "olm" else m.OLMNamespace) := by
  have hb := initializeBody_of_client w m h c hc
  have hd : DefaultTimeout = 2 * 60 * 1000000000 := by decide
  simp only [ Manager.initialize, hfirst, hb, DefaultOLMNamespace, hd]
  simp [hc]

/-! ## The claims at concrete inputs -/

/-- The mismatch case at installed = 1.2.0 and requested = 1.3.0, on a Manager that
builds its own client: the error's text holds both versions. -/
theorem version_mismatch_rejected_witness :
    Manager.initialize (clusterWith (Except.ok "1.2.0") none) (newManager none "1.3.0" 0 "") [] =
      ⟨none, ⟨some ⟨1⟩, "1.3.0", 120000000000, "olm", true⟩,
        [Event.GetConfig, Event.ClientForConfig ⟨0⟩]⟩ ∧
    ( Manager.Uninstall (clusterWith (Except.ok "1.2.0") none)
        (newManager none "1.3.0" 0 "") []).err =
      some (GoError.Errorf "mismatched installed version %q vs. supplied version %q"
        ["1.2.0", "1.3.0"] []) ∧
    ( Manager.Status (clusterWith (Except.ok "1.2.0") none)
        (newManager none "1.3.0" 0 "") []).err =
      some (GoError.Errorf "mismatched installed version %q vs. supplied version %q"
        ["1.2.0", "1.3.0"] []) ∧
    ( Manager.Uninstall (clusterWith (Except.ok "1.2.0") none)
        (newManager none "1.3.0" 0 "") []).hist =
      [Event.GetConfig, Event.ClientForConfig ⟨0⟩,
        Event.GetInstalledVersion (some ⟨1⟩) 120000000000 "olm"] ∧
    ( Manager.Uninstall (clusterWith (Except.ok "1.2.0") none)
        (newManager none "1.3.0" 0 "") []).mgr.Version = "1.3.0" ∧
    ( Manager.Uninstall (clusterWith (Except.ok "1.2.0") none)
        (newManager none "1.3.0" 0 "") []).err.bind (GoError.message (fun _ => false)) =
      some "mismatched installed version \"1.2.0\" vs. supplied version \"1.3.0\"" ∧
    textContains "mismatched installed version \"1.2.0\" vs. supplied version \"1.3.0\""
      "1.2.0" = true ∧
    textContains "mismatched installed version \"1.2.0\" vs. supplied version \"1.3.0\""
      "1.3.0" = true :=
  have k := version_mismatch_rejected (clusterWith (Except.ok "1.2.0") none)
    (newManager none "1.3.0" 0 "") ⟨some ⟨1⟩, "1.3.0", 120000000000, "olm", true⟩ []
    [Event.GetConfig, Event.ClientForConfig ⟨0⟩] "1.2.0" rfl rfl (by decide) (by decide)
  have t := k.2.2.2.2.2.2.2 (fun _ => false)
  ⟨rfl, k.1, k.2.1, k.2.2.1, k.2.2.2.2.2.1, t.1, t.2.2.2.2.1 (by decide),
    t.2.2.2.2.2 (by decide)⟩

/-- The reconciliation at installed = 1.2.0 and nothing requested: it does not fail
and proceeds with 1.2.0. -/
theorem reconciliation_outcome_witness :
    Manager.initialize (clusterWith (Except.ok "1.2.0") none) (newManager none "" 0 "") [] =
      ⟨none, ⟨some ⟨1⟩, "", 120000000000, "olm", true⟩,
        [Event.GetConfig, Event.ClientForConfig ⟨0⟩]⟩ ∧
    ( Manager.Uninstall (clusterWith (Except.ok "1.2.0") none) (newManager none "" 0 "") []).mgr =
      ⟨some ⟨1⟩, "1.2.0", 120000000000, "olm", true⟩ ∧
    ( Manager.Status (clusterWith (Except.ok "1.2.0") none) (newManager none "" 0 "") []).mgr =
      ⟨some ⟨1⟩, "1.2.0", 120000000000, "olm", true⟩ ∧
    (∃ out, ( Manager.Uninstall (clusterWith (Except.ok "1.2.0") none)
        (newManager none "" 0 "") []).hist =
      [Event.GetConfig, Event.ClientForConfig ⟨0⟩,
        Event.GetInstalledVersion (some ⟨1⟩) 120000000000 "olm",
        Event.UninstallVersion (some ⟨1⟩) 120000000000 "1.2.0"] ++ out) :=
  have k := (reconciliation_outcome (clusterWith (Except.ok "1.2.0") none)
    (newManager none "" 0 "") ⟨some ⟨1⟩, "", 120000000000, "olm", true⟩ []
    [Event.GetConfig, Event.ClientForConfig ⟨0⟩] rfl).2.2.2.2
    (fun hf => hf.elim (fun ⟨_, _, hne, _⟩ => hne rfl) (fun ⟨_, he, _⟩ => by cases he))
  ⟨rfl, k.1, k.2.1, k.2.2.1.imp (fun _ ho => ho.1)⟩

/-- The adoption case at installed = 1.2.0 and nothing requested, with a failing
uninstall and a successful status query. -/
theorem installed_version_adopted_witness :
    Manager.initialize (clusterWith (Except.ok "1.2.0") (some (GoError.remote "timed out")))
        (newManager (some ⟨5⟩) "" 30 "operators") [] =
      ⟨none, ⟨some ⟨5⟩, "", 30, "operators", true⟩, []⟩ ∧
    ( Manager.Uninstall (clusterWith (Except.ok "1.2.0") (some (GoError.remote "timed out")))
        (newManager (some ⟨5⟩) "" 30 "operators") []).mgr.Version = "1.2.0" ∧
    ( Manager.Status (clusterWith (Except.ok "1.2.0") (some (GoError.remote "timed out")))
        (newManager (some ⟨5⟩) "" 30 "operators") []).mgr.Version = "1.2.0" ∧
    ( Manager.Uninstall (clusterWith (Except.ok "1.2.0") (some (GoError.remote "timed out")))
        (newManager (some ⟨5⟩) "" 30 "operators") []).err = some (GoError.remote "timed out") ∧
    ( Manager.Status (clusterWith (Except.ok "1.2.0") (some (GoError.remote "timed out")))
        (newManager (some ⟨5⟩) "" 30 "operators") []).err = none :=
  have k := installed_version_adopted
    (clusterWith (Except.ok "1.2.0") (some (GoError.remote "timed out")))
    (newManager (some ⟨5⟩) "" 30 "operators") ⟨some ⟨5⟩, "", 30, "operators", true⟩ [] []
    "1.2.0" rfl rfl rfl
  ⟨rfl, k.1, k.2.1, k.2.2.2.2.1, k.2.2.2.2.2⟩

/-- The unresolvable case: a failing version query and nothing requested. -/
theorem unresolvable_version_rejected_witness :
    Manager.initialize (clusterWith (Except.error (GoError.remote "no OLM found")) none)
        (newManager none "" 0 "") [] =
      ⟨none, ⟨some ⟨1⟩, "", 120000000000, "olm", true⟩,
        [Event.GetConfig, Event.ClientForConfig ⟨0⟩]⟩ ∧
    ( Manager.Uninstall (clusterWith (Except.error (GoError.remote "no OLM found")) none)
        (newManager none "" 0 "") []).err =
      some (GoError.Errorf
        "error getting installed OLM version (set --version to override the default version): %v"
        [] [GoError.remote "no OLM found"]) ∧
    ( Manager.Status (clusterWith (Except.error (GoError.remote "no OLM found")) none)
        (newManager none "" 0 "") []).hist =
      [Event.GetConfig, Event.ClientForConfig ⟨0⟩,
        Event.GetInstalledVersion (some ⟨1⟩) 120000000000 "olm"] ∧
    ( Manager.Uninstall (clusterWith (Except.error (GoError.remote "no OLM found")) none)
        (newManager none "" 0 "") []).mgr.Version = "" :=
  have k := unresolvable_version_rejected
    (clusterWith (Except.error (GoError.remote "no OLM found")) none)
    (newManager none "" 0 "") ⟨some ⟨1⟩, "", 120000000000, "olm", true⟩ []
    [Event.GetConfig, Event.ClientForConfig ⟨0⟩] (GoError.remote "no OLM found") rfl rfl rfl
  ⟨rfl, k.1, k.2.2.2.1, k.2.2.2.2.2.1⟩

/-- The override case: a failing version query and requested = 2.0.0. -/
theorem query_failure_overridden_witness :
    Manager.initialize
        (clusterWith (Except.error (GoError.remote "no OLM found"))
          (some (GoError.remote "forbidden")))
        (newManager (some ⟨5⟩) "2.0.0" 0 "") [] =
      ⟨none, ⟨some ⟨5⟩, "2.0.0", 120000000000, "olm", true⟩, []⟩ ∧
    ( Manager.Uninstall
        (clusterWith (Except.error (GoError.remote "no OLM found"))
          (some (GoError.remote "forbidden")))
        (newManager (some ⟨5⟩) "2.0.0" 0 "") []).err = some (GoError.remote "forbidden") ∧
    ( Manager.Status
        (clusterWith (Except.error (GoError.remote "no OLM found"))
          (some (GoError.remote "forbidden")))
        (newManager (some ⟨5⟩) "2.0.0" 0 "") []).err = none ∧
    ( Manager.Uninstall
        (clusterWith (Except.error (GoError.remote "no OLM found"))
          (some (GoError.remote "forbidden")))
        (newManager (some ⟨5⟩) "2.0.0" 0 "") []).mgr.Version = "2.0.0" ∧
    (∃ out, ( Manager.Status
        (clusterWith (Except.error (GoError.remote "no OLM found"))
          (some (GoError.remote "forbidden")))
        (newManager (some ⟨5⟩) "2.0.0" 0 "") []).hist =
      [Event.GetInstalledVersion (some ⟨5⟩) 120000000000 "olm",
        Event.GetStatus (some ⟨5⟩) 120000000000 "2.0.0"] ++ out) :=
  have k := query_failure_overridden
    (clusterWith (Except.error (GoError.remote "no OLM found"))
      (some (GoError.remote "forbidden")))
    (newManager (some ⟨5⟩) "2.0.0" 0 "") ⟨some ⟨5⟩, "2.0.0", 120000000000, "olm", true⟩ [] []
    (GoError.remote "no OLM found") rfl rfl (by decide)
  ⟨rfl, k.2.2.1, k.2.2.2.1, k.2.2.2.2.1, k.2.1.imp (fun _ ho => ho.1)⟩

/-- A Manager that builds its own client and takes both defaults, then goes
through four more calls in a world where the version query fails. -/
theorem ready_fields_stable_witness :
    (newManager none "" 0 "").once = false ∧
    ( Manager.initialize (clusterWith (Except.ok "1.2.0") none)
        (newManager none "" 0 "") []).mgr =
      ⟨some ⟨1⟩, "", 120000000000, "olm", true⟩ ∧
    ( Manager.calls (clusterWith (Except.error (GoError.remote "no OLM found")) none)
        [Op.uninstall, Op.install, Op.status, Op.init]
        ( Manager.initialize (clusterWith (Except.ok "1.2.0") none)
          (newManager none "" 0 "") []).mgr []).1.Client = some ⟨1⟩ ∧
    ( Manager.calls (clusterWith (Except.error (GoError.remote "no OLM found")) none)
        [Op.uninstall, Op.install, Op.status, Op.init]
        ( Manager.initialize (clusterWith (Except.ok "1.2.0") none)
          (newManager none "" 0 "") []).mgr []).1.Timeout = 120000000000 ∧
    ( Manager.calls (clusterWith (Except.error (GoError.remote "no OLM found")) none)
        [Op.uninstall, Op.install, Op.status, Op.init]
        ( Manager.initialize (clusterWith (Except.ok "1.2.0") none)
          (newManager none "" 0 "") []).mgr []).1.OLMNamespace = "olm" :=
  have k := (ready_fields_stable (clusterWith (Except.ok "1.2.0") none)
    (newManager none "" 0 "") [] rfl rfl).2.2.2
    (clusterWith (Except.error (GoError.remote "no OLM found")) none)
    [Op.uninstall, Op.install, Op.status, Op.init] []
  ⟨rfl, rfl, k.1, k.2.1, k.2.2⟩

/-- Install with an empty Version on a Manager with a supplied client: the remote
install receives the empty string, not the default version. -/
theorem version_never_defaulted_witness :
    ( Manager.initialize (clusterWith (Except.ok "1.2.0") none)
        (newManager (some ⟨7⟩) "" 0 "") []).err = none ∧
    (∃ out, ( Manager.Install (clusterWith (Except.ok "1.2.0") none)
        (newManager (some ⟨7⟩) "" 0 "") []).hist =
      [Event.InstallVersion (some ⟨7⟩) 120000000000 "olm" ""] ++ out) ∧
    ( Manager.Install (clusterWith (Except.ok "1.2.0") none)
        (newManager (some ⟨7⟩) "" 0 "") []).mgr.Version = "" ∧
    ( Manager.Install (clusterWith (Except.ok "1.2.0") none)
        (newManager (some ⟨7⟩) "" 0 "") []).err = none ∧
    DefaultVersion ≠ "" :=
  have k := version_never_defaulted (clusterWith (Except.ok "1.2.0") none)
    (newManager (some ⟨7⟩) "" 0 "") []
  ⟨rfl, (k.2.2.2 rfl).1.imp (fun _ ho => ho.1), k.2.1, (k.2.2.2 rfl).2, by decide⟩

/-- A supplied client, a zero Timeout and a supplied namespace: the Timeout is
defaulted, the namespace is kept. -/
theorem initialize_defaults_with_client_witness :
    (newManager (some ⟨7⟩) "0.28.0" 0 "operators").once = false ∧
    ( Manager.initialize (clusterWith (Except.ok "1.2.0") none)
        (newManager (some ⟨7⟩) "0.28.0" 0 "operators") []).mgr =
      ⟨some ⟨7⟩, "0.28.0", 120000000000, "operators", true⟩ ∧
    ( Manager.initialize (clusterWith (Except.ok "1.2.0") none)
        (newManager (some ⟨7⟩) "0.28.0" 0 "operators") []).err = none ∧
    ( Manager.initialize (clusterWith (Except.ok "1.2.0") none)
        (newManager (some ⟨7⟩) "0.28.0" 0 "operators") []).mgr.Timeout = 120000000000 ∧
    ( Manager.initialize (clusterWith (Except.ok "1.2.0") none)
        (newManager (some ⟨7⟩) "0.28.0" 0 "operators") []).mgr.OLMNamespace = "operators" :=
  have k := initialize_defaults_with_client (clusterWith (Except.ok "1.2.0") none)
    (newManager (some ⟨7⟩) "0.28.0" 0 "operators") [] ⟨7⟩ rfl rfl
  ⟨rfl, rfl, k.1, k.2.2.2.2.1, k.2.2.2.2.2⟩
